import Mathlib

/-
Verification of the authentication/authorization core of the task-manager
backend (ThaCyfex/database_week8), shallowly embedded in Lean 4.

Sources embedded:
  - src/Task Manager/app/models/user.py   (User model, scopes property,
    password helpers, before_insert listener)
  - src/app/schemas/user.py               (Pydantic schemas and validators)
  - src/app/api/v1/endpoints/users.py     (login, user/task/category endpoints)
The service layer (app/services/auth.py, task_service.py, category_service.py)
is not present in the repository snapshot; its operations are modelled from
the specification and are marked as such in their doc comments.
-/

namespace TaskManager

/-! ## Core user record (src/Task Manager/app/models/user.py) -/

/-- User row of the `users` table. Timestamps are modelled as natural-number
instants; `last_login` is nullable. -/
structure User where
  id : Nat
  email : String
  username : String
  hashed_password : String
  full_name : Option String := none
  is_active : Bool := true
  is_superuser : Bool := false
  last_login : Option Nat := none
deriving Repr, DecidableEq

/-- Scope resolution, the `scopes` property of the model: a pure function of
the `is_superuser` flag. -/
def User.scopes (u : User) : List String :=
  if u.is_superuser then
    ["tasks:read", "tasks:write", "users:read", "users:write", "admin"]
  else
    ["tasks:read", "tasks:write"]

/-- Model of `pwd_context.hash` (passlib bcrypt, an external library): a
salted one-way digest, abstracted as an injective tagged encoding of the
plaintext. A digest always differs from every plaintext and from every
other plaintext's digest. -/
def pwd_hash (password : String) : String :=
  "$2b$12$" ++ password

/-- Model of `pwd_context.verify`: recompute and compare. -/
def pwd_verify (plain_password hashed_password : String) : Bool :=
  hashed_password == pwd_hash plain_password

/-- The model's `hash_password` method delegates to the context. -/
def User.hash_password (_u : User) (password : String) : String :=
  pwd_hash password

/-- The model's `verify_password` method delegates to the context. -/
def User.verify_password (_u : User) (plain hashed : String) : Bool :=
  pwd_verify plain hashed

/-- The `before_insert` listener `hash_user_password`: on insert, if the
`hashed_password` field is truthy it is replaced by its hash. -/
def hash_user_password (target : User) : User :=
  if target.hashed_password ≠ "" then
    { target with hashed_password := pwd_hash target.hashed_password }
  else
    target

/-! ## Schema validation (src/app/schemas/user.py) -/

/-- Character class of the username pattern in `UserBase`. -/
def validChar (c : Char) : Bool :=
  c.isAlphanum || c == '_' || c == '-'

/-- Boolean initial-segment test on character lists. -/
def leadsWith : List Char → List Char → Bool
  | [], _ => true
  | _ :: _, [] => false
  | a :: p, b :: l => a == b && leadsWith p l

/-- Boolean contiguous-substring test on character lists. -/
def occursIn (p : List Char) : List Char → Bool
  | [] => p.isEmpty
  | c :: tl => leadsWith p (c :: tl) || occursIn p tl

/-- Lowercased character content of a string, modelling Python `v.lower()`. -/
def lowerChars (v : String) : List Char :=
  v.toList.map Char.toLower

/-- The `username_must_be_valid` validators test `"admin" in v.lower()`. -/
def containsAdmin (v : String) : Bool :=
  occursIn "admin".toList (lowerChars v)

/-- Portion of the input the dollar anchor of Python `re.match` constrains:
the anchor also matches just before a single newline at the end of the
string, so one trailing newline is outside the matched body. -/
def regexBody (cs : List Char) : List Char :=
  if cs.getLast? = some '\n' then cs.dropLast else cs

/-- Acceptance of a username by the pattern `^[a-zA-Z0-9_-]+$` under pydantic
v1, which checks `Field(regex=...)` with `re.match`: one or more characters
of the class, optionally followed by one trailing newline tolerated by the
dollar anchor. -/
def username_regex_accepts (v : String) : Bool :=
  !(regexBody v.toList).isEmpty && (regexBody v.toList).all validChar

/-- Acceptance of a username by `UserBase` (creation path): the Field
constraints `min_length=3, max_length=50, regex` plus the validator. -/
def validate_username_create (v : String) : Bool :=
  3 ≤ v.length && v.length ≤ 50 && username_regex_accepts v && !(containsAdmin v)

/-- Acceptance of a username by `UserUpdate`: Field constraints
`min_length=3, max_length=50` (no regex) plus the validator. -/
def validate_username_update (v : String) : Bool :=
  3 ≤ v.length && v.length ≤ 50 && !(containsAdmin v)

/-- Payload of `UserCreate` (email format validation is external). -/
structure UserCreate where
  email : String
  username : String
  password : String
  full_name : Option String := none
deriving Repr, DecidableEq

/-- Acceptance of a `UserCreate` payload: username rules plus
`password: min_length=8`. -/
def validate_user_create (uc : UserCreate) : Bool :=
  validate_username_create uc.username && 8 ≤ uc.password.length

/-- Payload of `UserUpdate`; absent fields are `none`. -/
structure UserUpdate where
  email : Option String := none
  username : Option String := none
  full_name : Option String := none
  is_active : Option Bool := none
deriving Repr, DecidableEq

/-- Response projection `UserRead`; its `scopes` field is recomputed from the
live record at read time. -/
structure UserRead where
  id : Nat
  email : String
  username : String
  full_name : Option String
  is_active : Bool
  is_superuser : Bool
  scopes : List String
deriving Repr, DecidableEq

/-- Projection of a `User` row to the `UserRead` response schema. -/
def toUserRead (u : User) : UserRead :=
  { id := u.id, email := u.email, username := u.username,
    full_name := u.full_name, is_active := u.is_active,
    is_superuser := u.is_superuser, scopes := u.scopes }

/-! ## Creation path (C1) -/

/-- Modelled from the spec: `UserService.create_user`
(app/services/task_service.py is absent from the snapshot) computes the
hashed secret at creation time, before persistence, from the submitted
plaintext, and places it in the `hashed_password` field of the new row. -/
def service_prepare_user (next_id : Nat) (uc : UserCreate) : User :=
  { id := next_id, email := uc.email, username := uc.username,
    hashed_password := pwd_hash uc.password, full_name := uc.full_name }

/-- Persisting a row fires the `before_insert` listener of the model. -/
def persist_user (u : User) : User :=
  hash_user_password u

/-- The digest actually stored for a creation request: prepare (explicit
pre-persistence hash), then insert (listener fires). -/
def created_digest (uc : UserCreate) : String :=
  (persist_user (service_prepare_user 1 uc)).hashed_password

/-! ## Token model (C4, C8) -/

/-- Claims carried by an access token. -/
structure Claims where
  sub : String
  scopes : List String
  exp : Nat
deriving Repr, DecidableEq

/-- Length-delimited serialization of a string into wire units. -/
def encodeStr (s : String) : List Nat :=
  s.toList.length :: s.toList.map Char.toNat

/-- Parse one length-delimited string, returning it and the remainder. -/
def decodeStr : List Nat → Option (String × List Nat)
  | [] => none
  | n :: rest =>
    if n ≤ rest.length then
      some (String.mk ((rest.take n).map Char.ofNat), rest.drop n)
    else
      none

/-- Parse a counted sequence of length-delimited strings. -/
def decodeStrList : Nat → List Nat → Option (List String × List Nat)
  | 0, rest => some ([], rest)
  | n + 1, rest =>
    match decodeStr rest with
    | none => none
    | some (s, r1) =>
      match decodeStrList n r1 with
      | none => none
      | some (ss, r2) => some (s :: ss, r2)

/-- Serialization of the claims payload. -/
def encodeClaims (c : Claims) : List Nat :=
  encodeStr c.sub ++ (c.scopes.length :: (c.scopes.map encodeStr).flatten ++ [c.exp])

/-- Parse a claims payload, returning it and the remainder. -/
def decodeClaims (l : List Nat) : Option (Claims × List Nat) :=
  match decodeStr l with
  | none => none
  | some (sub, r1) =>
    match r1 with
    | [] => none
    | n :: r2 =>
      match decodeStrList n r2 with
      | none => none
      | some (sc, r3) =>
        match r3 with
        | [] => none
        | e :: r4 => some ({ sub := sub, scopes := sc, exp := e }, r4)

/-- Modelled from the spec: process-wide symmetric signing key (SECRET_KEY
configuration constant of the absent app/services/auth.py). -/
def SECRET_KEY : Nat := 271828

/-- Modelled from the spec: fixed token TTL configuration constant. -/
def ACCESS_TOKEN_EXPIRE_MINUTES : Nat := 30

/-- Modelled from the spec: keyed message-authentication code over the
payload wire units; any payload modification must be detectable. -/
def mac (key : Nat) : List Nat → Nat
  | [] => key
  | b :: rest => mac (key * 1000003 + b + 1) rest

/-- Attach a signature to a claims payload. -/
def signToken (c : Claims) : List Nat :=
  encodeClaims c ++ [mac SECRET_KEY (encodeClaims c)]

/-- Modelled from the spec: `create_access_token(data)` of the absent
app/services/auth.py signs the subject, the scopes granted at issuance, and
an expiry `now + TTL`. -/
def create_access_token (now : Nat) (sub : String) (scopes : List String) : List Nat :=
  signToken { sub := sub, scopes := scopes, exp := now + ACCESS_TOKEN_EXPIRE_MINUTES }

/-- Outcome of decoding a presented token. -/
inductive DecodeResult
  | ok (c : Claims)
  | expired
  | invalidSignature
  | malformed
deriving Repr, DecidableEq

/-- Modelled from the spec: `decode(token)` splits the token into payload
and trailing signature, parses the payload (failure: `Malformed`), checks
the signature over the received payload units (failure: `InvalidSignature`),
then checks the embedded expiry against the current instant (failure:
`Expired`). -/
def decodeToken (now : Nat) (t : List Nat) : DecodeResult :=
  match t.getLast? with
  | none => .malformed
  | some sig =>
    match decodeClaims t.dropLast with
    | some (c, []) =>
      if sig ≠ mac SECRET_KEY t.dropLast then .invalidSignature
      else if c.exp < now then .expired
      else .ok c
    | _ => .malformed

/-! ## Application state and services -/

/-- Task row; the task model file is not in the snapshot, so only the fields
the endpoints use are modelled: identifier, payload, owner reference. -/
structure Task where
  id : Nat
  title : String
  owner_id : Nat
deriving Repr, DecidableEq

/-- Category row, analogous to `Task`. -/
structure Category where
  id : Nat
  name : String
  owner_id : Nat
deriving Repr, DecidableEq

/-- Mutable fields of a task update request. -/
structure TaskUpdate where
  title : Option String := none
deriving Repr, DecidableEq

/-- Mutable fields of a category update request. -/
structure CategoryUpdate where
  name : Option String := none
deriving Repr, DecidableEq

/-- Persistent store contents relevant to the embedded slice. -/
structure AppState where
  users : List User
  tasks : List Task
  categories : List Category
deriving Repr, DecidableEq

/-- Error payload surfaced by a handler; `www_authenticate` models the
`WWW-Authenticate` response header when present. -/
structure HTTPError where
  status_code : Nat
  detail : String
  www_authenticate : Option String := none
deriving Repr, DecidableEq

/-- Result of a handler: a value or an HTTP error. -/
inductive ApiResult (α : Type)
  | ok (value : α)
  | err (e : HTTPError)
deriving Repr, DecidableEq

/-- Lookup of a user row by username. -/
def find_user (s : AppState) (username : String) : Option User :=
  s.users.find? (fun u => u.username == username)

/-- Modelled from the spec: `authenticate_user` of the absent
app/services/auth.py looks up the user by username and verifies the
password; an absent user and a wrong password both yield the same `none`.
(The last-login side effect is irrelevant to the embedded claims and
omitted.) -/
def authenticate_user (s : AppState) (username password : String) : Option User :=
  match find_user s username with
  | none => none
  | some u => if pwd_verify password u.hashed_password then some u else none

/-- Body of the token endpoint response. -/
structure TokenOut where
  access_token : List Nat
  token_type : String
deriving Repr, DecidableEq

/-- The `/token` handler `login_for_access_token`: authentication failure
raises a generic 401 with a `WWW-Authenticate: Bearer` header; success signs
`sub` and the scopes resolved at issuance. -/
def login_for_access_token (s : AppState) (now : Nat) (username password : String) :
    ApiResult TokenOut :=
  match authenticate_user s username password with
  | none => .err { status_code := 401, detail := "Incorrect username or password",
                   www_authenticate := some "Bearer" }
  | some u => .ok { access_token := create_access_token now u.username u.scopes,
                    token_type := "bearer" }

/-- The 403 error raised by the scope checks in the user endpoints. -/
def forbiddenError : HTTPError :=
  { status_code := 403, detail := "Not enough permissions" }

/-- Fresh user identifier for an insert. -/
def next_user_id (s : AppState) : Nat :=
  (s.users.map User.id).foldr max 0 + 1

/-- Modelled from the spec: `UserService.create_user` validates the payload
(422 on failure), rejects a duplicate username or email (409), then prepares
the row with the pre-persistence hash and inserts it (firing the listener). -/
def UserService_create_user (s : AppState) (uc : UserCreate) :
    ApiResult UserRead × AppState :=
  if !(validate_user_create uc) then
    (.err { status_code := 422, detail := "Validation error" }, s)
  else if s.users.any (fun u => u.username == uc.username || u.email == uc.email) then
    (.err { status_code := 409, detail := "Duplicate user" }, s)
  else
    let row := persist_user (service_prepare_user (next_user_id s) uc)
    (.ok (toUserRead row), { s with users := s.users ++ [row] })

/-- Modelled from the spec: `UserService.get_users` pages the user list. -/
def UserService_get_users (s : AppState) (skip limit : Nat) : List UserRead :=
  ((s.users.drop skip).take limit).map toUserRead

/-- Modelled from the spec: `UserService.get_user` fetches by identifier. -/
def UserService_get_user (s : AppState) (user_id : Nat) : Option User :=
  s.users.find? (fun u => u.id == user_id)

/-- Application of a `UserUpdate` payload to a row. -/
def apply_user_update (u : User) (upd : UserUpdate) : User :=
  { u with email := upd.email.getD u.email,
           username := upd.username.getD u.username,
           full_name := match upd.full_name with
                        | some v => some v
                        | none => u.full_name,
           is_active := upd.is_active.getD u.is_active }

/-- Modelled from the spec: `UserService.update_user` fetches by identifier
(404 when absent), validates a supplied username, and rewrites the row. -/
def UserService_update_user (s : AppState) (user_id : Nat) (upd : UserUpdate) :
    ApiResult UserRead × AppState :=
  match UserService_get_user s user_id with
  | none => (.err { status_code := 404, detail := "User not found" }, s)
  | some u =>
    match upd.username with
    | some v =>
      if !(validate_username_update v) then
        (.err { status_code := 422, detail := "Validation error" }, s)
      else
        let row := apply_user_update u upd
        (.ok (toUserRead row),
         { s with users := s.users.map (fun w => if w.id == user_id then row else w) })
    | none =>
      let row := apply_user_update u upd
      (.ok (toUserRead row),
       { s with users := s.users.map (fun w => if w.id == user_id then row else w) })

/-- Modelled from the spec and the model's relationship declaration
(`cascade="all, delete-orphan"`): `UserService.delete_user` removes the row
and every task it owns. -/
def UserService_delete_user (s : AppState) (user_id : Nat) :
    ApiResult Unit × AppState :=
  match UserService_get_user s user_id with
  | none => (.err { status_code := 404, detail := "User not found" }, s)
  | some _ =>
    (.ok (),
     { s with users := s.users.filter (fun u => u.id != user_id),
              tasks := s.tasks.filter (fun t => t.owner_id != user_id) })

/-! ## User endpoints (src/app/api/v1/endpoints/users.py) -/

/-- POST /users: scope check `users:write`, then delegate to the service. -/
def create_user_endpoint (s : AppState) (current_user : User) (uc : UserCreate) :
    ApiResult UserRead × AppState :=
  if "users:write" ∉ current_user.scopes then (.err forbiddenError, s)
  else UserService_create_user s uc

/-- GET /users/me: returns the resolved caller, no scope check. -/
def read_users_me_endpoint (current_user : User) : ApiResult UserRead :=
  .ok (toUserRead current_user)

/-- GET /users: scope check `users:read`, then page the list. -/
def read_users_endpoint (s : AppState) (current_user : User) (skip limit : Nat) :
    ApiResult (List UserRead) :=
  if "users:read" ∉ current_user.scopes then .err forbiddenError
  else .ok (UserService_get_users s skip limit)

/-- GET /users/{user_id}: scope check `users:read`, 404 when absent. -/
def read_user_endpoint (s : AppState) (current_user : User) (user_id : Nat) :
    ApiResult UserRead :=
  if "users:read" ∉ current_user.scopes then .err forbiddenError
  else
    match UserService_get_user s user_id with
    | none => .err { status_code := 404, detail := "User not found" }
    | some u => .ok (toUserRead u)

/-- PUT /users/{user_id}: scope check `users:write`, then delegate. -/
def update_user_endpoint (s : AppState) (current_user : User) (user_id : Nat)
    (upd : UserUpdate) : ApiResult UserRead × AppState :=
  if "users:write" ∉ current_user.scopes then (.err forbiddenError, s)
  else UserService_update_user s user_id upd

/-- DELETE /users/{user_id}: scope check `users:write`, then delegate. -/
def delete_user_endpoint (s : AppState) (current_user : User) (user_id : Nat) :
    ApiResult Unit × AppState :=
  if "users:write" ∉ current_user.scopes then (.err forbiddenError, s)
  else UserService_delete_user s user_id

/-! ## Task and category services and endpoints -/

/-- Modelled from the spec: `TaskService.get_task` filters by the task
identifier and the resolved owner identifier. -/
def TaskService_get_task (s : AppState) (task_id owner_id : Nat) : Option Task :=
  s.tasks.find? (fun t => t.id == task_id && t.owner_id == owner_id)

/-- Modelled from the spec: `TaskService.update_task` rewrites the owned row,
surfacing `NotFound` when no row matches the caller's ownership filter. -/
def TaskService_update_task (s : AppState) (task_id : Nat) (upd : TaskUpdate)
    (owner_id : Nat) : ApiResult Task × AppState :=
  match TaskService_get_task s task_id owner_id with
  | none => (.err { status_code := 404, detail := "Task not found" }, s)
  | some t =>
    let row := { t with title := upd.title.getD t.title }
    (.ok row,
     { s with tasks := s.tasks.map (fun w =>
         if w.id == task_id && w.owner_id == owner_id then row else w) })

/-- Modelled from the spec: `TaskService.delete_task` removes the owned row,
surfacing `NotFound` when no row matches the caller's ownership filter. -/
def TaskService_delete_task (s : AppState) (task_id owner_id : Nat) :
    ApiResult Unit × AppState :=
  match TaskService_get_task s task_id owner_id with
  | none => (.err { status_code := 404, detail := "Task not found" }, s)
  | some _ =>
    (.ok (),
     { s with tasks := s.tasks.filter (fun t =>
         !(t.id == task_id && t.owner_id == owner_id)) })

/-- GET /tasks/{task_id}: ownership-filtered fetch, 404 when no owned row. -/
def read_task_endpoint (s : AppState) (current_user : User) (task_id : Nat) :
    ApiResult Task :=
  match TaskService_get_task s task_id current_user.id with
  | none => .err { status_code := 404, detail := "Task not found" }
  | some t => .ok t

/-- PUT /tasks/{task_id}: delegates with the resolved caller's identifier. -/
def update_task_endpoint (s : AppState) (current_user : User) (task_id : Nat)
    (upd : TaskUpdate) : ApiResult Task × AppState :=
  TaskService_update_task s task_id upd current_user.id

/-- DELETE /tasks/{task_id}: delegates with the resolved caller's identifier. -/
def delete_task_endpoint (s : AppState) (current_user : User) (task_id : Nat) :
    ApiResult Unit × AppState :=
  TaskService_delete_task s task_id current_user.id

/-- Modelled from the spec: `CategoryService.get_category`, ownership-filtered. -/
def CategoryService_get_category (s : AppState) (category_id owner_id : Nat) :
    Option Category :=
  s.categories.find? (fun c => c.id == category_id && c.owner_id == owner_id)

/-- Modelled from the spec: `CategoryService.update_category`, analogous to
the task service. -/
def CategoryService_update_category (s : AppState) (category_id : Nat)
    (upd : CategoryUpdate) (owner_id : Nat) : ApiResult Category × AppState :=
  match CategoryService_get_category s category_id owner_id with
  | none => (.err { status_code := 404, detail := "Category not found" }, s)
  | some c =>
    let row := { c with name := upd.name.getD c.name }
    (.ok row,
     { s with categories := s.categories.map (fun w =>
         if w.id == category_id && w.owner_id == owner_id then row else w) })

/-- Modelled from the spec: `CategoryService.delete_category`, analogous to
the task service. -/
def CategoryService_delete_category (s : AppState) (category_id owner_id : Nat) :
    ApiResult Unit × AppState :=
  match CategoryService_get_category s category_id owner_id with
  | none => (.err { status_code := 404, detail := "Category not found" }, s)
  | some _ =>
    (.ok (),
     { s with categories := s.categories.filter (fun c =>
         !(c.id == category_id && c.owner_id == owner_id)) })

/-- GET /categories/{category_id}: ownership-filtered fetch, 404 otherwise. -/
def read_category_endpoint (s : AppState) (current_user : User) (category_id : Nat) :
    ApiResult Category :=
  match CategoryService_get_category s category_id current_user.id with
  | none => .err { status_code := 404, detail := "Category not found" }
  | some c => .ok c

/-- PUT /categories/{category_id}: delegates with the caller's identifier. -/
def update_category_endpoint (s : AppState) (current_user : User)
    (category_id : Nat) (upd : CategoryUpdate) : ApiResult Category × AppState :=
  CategoryService_update_category s category_id upd current_user.id

/-- DELETE /categories/{category_id}: delegates with the caller's identifier. -/
def delete_category_endpoint (s : AppState) (current_user : User)
    (category_id : Nat) : ApiResult Unit × AppState :=
  CategoryService_delete_category s category_id current_user.id

/-! ## Operation alphabet for the ownership invariant (C9) -/

/-- Fresh task identifier for an insert. -/
def next_task_id (s : AppState) : Nat :=
  (s.tasks.map Task.id).foldr max 0 + 1

/-- Store operations touching users and tasks. Task creation carries the
identifier of the resolved caller (the Access Guard re-fetches the live
user, so creation under a nonexistent actor never reaches the service). -/
inductive Op
  | createUser (uc : UserCreate)
  | deleteUser (user_id : Nat)
  | createTask (actor_id : Nat) (title : String)
  | deleteTask (actor_id : Nat) (task_id : Nat)

/-- One store transition. -/
def step (s : AppState) : Op → AppState
  | .createUser uc => (UserService_create_user s uc).2
  | .deleteUser uid => (UserService_delete_user s uid).2
  | .createTask actor title =>
    if s.users.any (fun u => u.id == actor) then
      { s with tasks := s.tasks ++ [{ id := next_task_id s, title := title, owner_id := actor }] }
    else
      s
  | .deleteTask actor tid => (TaskService_delete_task s tid actor).2

/-- Execution of a sequence of operations. -/
def run (s : AppState) (ops : List Op) : AppState :=
  ops.foldl step s

/-- Every task's owner reference resolves to a live user row. -/
def noOrphanTasks (s : AppState) : Bool :=
  s.tasks.all (fun t => s.users.any (fun u => u.id == t.owner_id))

/-! ## Concrete fixtures used by witnesses -/

/-- Elevated demonstration user. -/
def demo_admin_user : User :=
  { id := 1, email := "root@example.co.za", username := "thembelani",
    hashed_password := pwd_hash "Sup3rSecretPw", is_superuser := true }

/-- Non-elevated demonstration user. -/
def demo_member_user : User :=
  { id := 2, email := "sipho@example.co.za", username := "sipho-nkosi",
    hashed_password := pwd_hash "CorrectHorse9" }

/-- Demonstration creation payload. -/
def demo_user_create : UserCreate :=
  { email := "lindiwe@example.co.za", username := "lindiwe-m",
    password := "Str0ngEnough" }

/-- Demonstration store: two users, one task and one category each. -/
def demo_state : AppState :=
  { users := [demo_admin_user, demo_member_user],
    tasks := [{ id := 10, title := "file taxes", owner_id := 1 },
              { id := 11, title := "buy milk", owner_id := 2 }],
    categories := [{ id := 20, name := "work", owner_id := 1 },
                   { id := 21, name := "home", owner_id := 2 }] }

/-! ## Theorems -/

/-- C1: the claim requires the persisted digest for a submitted plaintext
`p` to be `pwd_hash p`, computed exactly once before persistence, so that
verification of `p` succeeds. On the code it fails: the creation service
hashes before persistence (spec-modelled, the service file being absent) and
the `before_insert` listener of src/Task Manager/app/models/user.py then
hashes the already-hashed field again, so the store holds
`pwd_hash (pwd_hash p)` and verification of `p` against it fails. Evaluated
here at the failing input `password = "password123"`. -/
theorem C1_creation_double_hashes :
    created_digest { email := "sipho@example.co.za", username := "sipho-nkosi",
                     password := "password123" } =
      pwd_hash (pwd_hash "password123") ∧
    pwd_verify "password123"
      (created_digest { email := "sipho@example.co.za", username := "sipho-nkosi",
                        password := "password123" }) = false ∧
    created_digest { email := "sipho@example.co.za", username := "sipho-nkosi",
                     password := "password123" } ≠ pwd_hash "password123" ∧
    created_digest { email := "sipho@example.co.za", username := "sipho-nkosi",
                     password := "password123" } ≠ "password123" := by
  refine ⟨rfl, by decide, by decide, by decide⟩

/-- C2: scope resolution is a pure function of the elevated-role flag alone;
an elevated user resolves to exactly the five-scope set, a non-elevated user
to exactly the two task scopes, which contain neither `admin` nor
`users:read` nor `users:write`. -/
theorem C2_scope_resolution (u : User) :
    (u.is_superuser = true →
      u.scopes = ["tasks:read", "tasks:write", "users:read", "users:write", "admin"]) ∧
    (u.is_superuser = false →
      u.scopes = ["tasks:read", "tasks:write"] ∧
      "admin" ∉ u.scopes ∧ "users:read" ∉ u.scopes ∧ "users:write" ∉ u.scopes) ∧
    (∀ v : User, v.is_superuser = u.is_superuser → v.scopes = u.scopes) := by
  refine ⟨fun h => by simp [User.scopes, h], fun h => ?_, fun v h => by
    simp [User.scopes, h]⟩
  refine ⟨by simp [User.scopes, h], ?_, ?_, ?_⟩ <;> simp [User.scopes, h]

/-- Witness for C2 at the two demonstration users. -/
theorem C2_scope_resolution_witness :
    (demo_admin_user.is_superuser = true ∧
      demo_admin_user.scopes =
        ["tasks:read", "tasks:write", "users:read", "users:write", "admin"]) ∧
    (demo_member_user.is_superuser = false ∧
      demo_member_user.scopes = ["tasks:read", "tasks:write"] ∧
      "admin" ∉ demo_member_user.scopes ∧
      "users:read" ∉ demo_member_user.scopes ∧
      "users:write" ∉ demo_member_user.scopes) :=
  ⟨⟨rfl, (C2_scope_resolution demo_admin_user).1 rfl⟩,
   ⟨rfl, (C2_scope_resolution demo_member_user).2.1 rfl⟩⟩

/-- Characterization of the username character class: exactly ASCII
letters, digits, underscore, hyphen, matching the creation regex. -/
theorem validChar_iff (c : Char) : validChar c = true ↔
    (97 ≤ c.toNat ∧ c.toNat ≤ 122) ∨ (65 ≤ c.toNat ∧ c.toNat ≤ 90) ∨
    (48 ≤ c.toNat ∧ c.toNat ≤ 57) ∨ c = '_' ∨ c = '-' := by
  simp only [validChar, Char.isAlphanum, Char.isAlpha, Char.isUpper, Char.isLower,
    Char.isDigit, Char.toNat, Bool.or_eq_true, decide_eq_true_eq, Bool.and_eq_true,
    beq_iff_eq, ge_iff_le]
  tauto

/-- Correctness of the initial-segment test. -/
theorem leadsWith_iff (p l : List Char) : leadsWith p l = true ↔ ∃ t, l = p ++ t := by
  induction p generalizing l with
  | nil => simp [leadsWith]
  | cons a p ih =>
    cases l with
    | nil => simp [leadsWith]
    | cons b l =>
      simp only [leadsWith, Bool.and_eq_true, beq_iff_eq, ih, List.cons_append,
        List.cons.injEq]
      constructor
      · rintro ⟨rfl, t, rfl⟩
        exact ⟨t, rfl, rfl⟩
      · rintro ⟨t, rfl, rfl⟩
        exact ⟨rfl, t, rfl⟩

/-- Correctness of the contiguous-substring test. -/
theorem occursIn_iff (p l : List Char) :
    occursIn p l = true ↔ ∃ l1 l2, l = l1 ++ p ++ l2 := by
  induction l with
  | nil =>
    simp only [occursIn, List.isEmpty_iff]
    constructor
    · rintro rfl
      exact ⟨[], [], rfl⟩
    · rintro ⟨l1, l2, h⟩
      rcases List.append_eq_nil.mp (List.append_eq_nil.mp h.symm).1 with ⟨-, h2⟩
      exact h2
  | cons c tl ih =>
    simp only [occursIn, Bool.or_eq_true, leadsWith_iff, ih]
    constructor
    · rintro (⟨t, h⟩ | ⟨l1, l2, rfl⟩)
      · exact ⟨[], t, by simpa using h⟩
      · exact ⟨c :: l1, l2, rfl⟩
    · rintro ⟨l1, l2, h⟩
      cases l1 with
      | nil =>
        left
        exact ⟨l2, by simpa using h⟩
      | cons x l1 =>
        right
        rcases (List.cons.injEq ..).mp (by simpa using h) with ⟨-, h2⟩
        exact ⟨l1, l2, by simpa [List.append_assoc] using h2⟩

/-- Characterization of the dollar-anchor-tolerant pattern check on lists:
it accepts exactly a nonempty run of class characters, possibly followed by
one trailing newline. -/
theorem regexBody_accepts_iff (l : List Char) :
    (!(regexBody l).isEmpty && (regexBody l).all validChar) = true ↔
      ∃ body : List Char, (l = body ∨ l = body ++ ['\n']) ∧ body ≠ [] ∧
        ∀ c ∈ body, validChar c = true := by
  rcases List.eq_nil_or_concat l with rfl | ⟨ys, a, rfl⟩
  · constructor
    · intro h
      simp [regexBody] at h
    · rintro ⟨body, hrep | hrep, hne, -⟩
      · exact absurd hrep.symm hne
      · exact absurd hrep (by simp)
  · simp only [List.concat_eq_append]
    by_cases ha : a = '\n'
    · subst ha
      have hb : regexBody (ys ++ ['\n']) = ys := by
        simp [regexBody, List.getLast?_concat, List.dropLast_concat]
      rw [hb]
      simp only [Bool.and_eq_true, Bool.not_eq_true', List.isEmpty_eq_false,
        List.all_eq_true]
      constructor
      · rintro ⟨hne, hall⟩
        exact ⟨ys, Or.inr rfl, hne, hall⟩
      · rintro ⟨body, hrep | hrep, hne, hcls⟩
        · exfalso
          have hmem : '\n' ∈ body := by
            rw [← hrep]
            simp
          have := hcls _ hmem
          simp [validChar] at this
        · have : ys = body := by
            have := List.append_inj_left' hrep rfl
            exact this
          subst this
          exact ⟨hne, hcls⟩
    · have hb : regexBody (ys ++ [a]) = ys ++ [a] := by
        simp only [regexBody, List.getLast?_concat]
        rw [if_neg]
        simp [ha]
      rw [hb]
      simp only [Bool.and_eq_true, Bool.not_eq_true', List.isEmpty_eq_false,
        List.all_eq_true]
      constructor
      · rintro ⟨hne, hall⟩
        exact ⟨ys ++ [a], Or.inl rfl, hne, hall⟩
      · rintro ⟨body, hrep | hrep, hne, hcls⟩
        · rw [hrep]
          exact ⟨hne, hcls⟩
        · exfalso
          apply ha
          have : (ys ++ [a]).getLast? = (body ++ ['\n']).getLast? := by rw [hrep]
          simpa [List.getLast?_concat] using this

/-- The pattern check accepts a string exactly when its characters are a
nonempty run of letters, digits, underscore and hyphen (given by explicit
code-point ranges), possibly followed by one trailing newline. -/
theorem username_regex_accepts_iff (v : String) :
    username_regex_accepts v = true ↔
      ∃ body : List Char, (v.toList = body ∨ v.toList = body ++ ['\n']) ∧
        body ≠ [] ∧ ∀ c ∈ body,
          (97 ≤ c.toNat ∧ c.toNat ≤ 122) ∨ (65 ≤ c.toNat ∧ c.toNat ≤ 90) ∨
          (48 ≤ c.toNat ∧ c.toNat ≤ 57) ∨ c = '_' ∨ c = '-' := by
  rw [username_regex_accepts, regexBody_accepts_iff]
  constructor
  · rintro ⟨body, hrep, hne, hcls⟩
    exact ⟨body, hrep, hne, fun c hc => (validChar_iff c).mp (hcls c hc)⟩
  · rintro ⟨body, hrep, hne, hcls⟩
    exact ⟨body, hrep, hne, fun c hc => (validChar_iff c).mpr (hcls c hc)⟩

/-- C7 counterexample: creation validation accepts the username consisting
of "abc" followed by a newline, because pydantic v1 checks the Field regex
with Python `re.match`, whose dollar anchor also matches just before a
single trailing newline; the newline is outside the claimed character
class, so acceptance does not imply the claimed class-only content. -/
theorem C7_username_creation_counterexample :
    validate_username_create "abc\n" = true ∧
    ('\n' ∈ "abc\n".toList ∧ validChar '\n' = false) ∧
    ¬(∀ s : String, validate_username_create s = true →
        s.toList.all validChar = true) :=
  ⟨by decide, ⟨by decide, by decide⟩,
   fun h => absurd (h "abc\n" (by decide)) (by decide)⟩

/-- C7 amended: a username passes creation validation exactly when the full
submitted string is 3 to 50 characters, its lowercasing does not contain
the substring "admin", and its characters are a nonempty run of letters,
digits, underscore and hyphen possibly followed by one trailing newline
(tolerated by the dollar anchor of Python `re.match`); in particular
"administrator" and "ab" both fail. -/
theorem C7_username_creation_validation_amended (s : String) :
    (validate_username_create s = true ↔
      (3 ≤ s.length ∧ s.length ≤ 50 ∧
        (∃ body : List Char, (s.toList = body ∨ s.toList = body ++ ['\n']) ∧
          body ≠ [] ∧ ∀ c ∈ body,
            (97 ≤ c.toNat ∧ c.toNat ≤ 122) ∨ (65 ≤ c.toNat ∧ c.toNat ≤ 90) ∨
            (48 ≤ c.toNat ∧ c.toNat ≤ 57) ∨ c = '_' ∨ c = '-') ∧
        ¬∃ l1 l2, lowerChars s = l1 ++ "admin".toList ++ l2)) ∧
    validate_username_create "administrator" = false ∧
    validate_username_create "ab" = false := by
  refine ⟨?_, by decide, by decide⟩
  simp only [validate_username_create, Bool.and_eq_true, decide_eq_true_eq,
    username_regex_accepts_iff, Bool.not_eq_true', ← Bool.not_eq_true,
    containsAdmin, occursIn_iff]
  constructor
  · rintro ⟨⟨⟨h1, h2⟩, h3⟩, h4⟩
    exact ⟨h1, h2, h3, h4⟩
  · rintro ⟨h1, h2, h3, h4⟩
    exact ⟨⟨⟨h1, h2⟩, h3⟩, h4⟩

/-- C10: update validation accepts any username of 3 to 50 characters whose
lowercasing avoids the substring "admin", with no character-pattern
constraint; the value "du toit!" is accepted by the update schema yet
rejected by the creation schema. -/
theorem C10_update_validation_no_pattern (s : String)
    (h1 : 3 ≤ s.length) (h2 : s.length ≤ 50)
    (h3 : ¬∃ l1 l2, lowerChars s = l1 ++ "admin".toList ++ l2) :
    validate_username_update s = true ∧
    validate_username_update "du toit!" = true ∧
    validate_username_create "du toit!" = false := by
  refine ⟨?_, by decide, by decide⟩
  have hb : containsAdmin s = false := by
    rw [containsAdmin, ← Bool.not_eq_true, occursIn_iff]
    exact h3
  simp [validate_username_update, h1, h2, hb]

/-- Witness for C10 at the concrete username "lindiwe m". -/
theorem C10_update_validation_no_pattern_witness :
    validate_username_update "lindiwe m" = true ∧
    validate_username_update "du toit!" = true ∧
    validate_username_create "du toit!" = false :=
  C10_update_validation_no_pattern "lindiwe m" (by decide) (by decide)
    (fun ⟨l1, l2, h⟩ =>
      absurd ((occursIn_iff "admin".toList (lowerChars "lindiwe m")).mpr ⟨l1, l2, h⟩)
        (by decide))

/-- Parsing inverts serialization of a string, leaving the remainder. -/
theorem decodeStr_encodeStr (s : String) (rest : List Nat) :
    decodeStr (encodeStr s ++ rest) = some (s, rest) := by
  simp only [encodeStr, decodeStr, List.cons_append]
  rw [if_pos (by simp : s.toList.length ≤ (s.toList.map Char.toNat ++ rest).length)]
  have hlen : s.toList.length = (s.toList.map Char.toNat).length := by simp
  rw [hlen, List.take_left, List.drop_left]
  simp [List.map_map, Function.comp_def, Char.ofNat_toNat]

/-- Parsing inverts serialization of a counted string sequence. -/
theorem decodeStrList_encode (l : List String) (rest : List Nat) :
    decodeStrList l.length ((l.map encodeStr).flatten ++ rest) = some (l, rest) := by
  induction l generalizing rest with
  | nil => simp [decodeStrList]
  | cons s tl ih =>
    simp only [List.length_cons, List.map_cons, List.flatten_cons, List.append_assoc,
      decodeStrList, decodeStr_encodeStr, ih]

/-- Parsing inverts serialization of a claims payload. -/
theorem decodeClaims_encodeClaims (c : Claims) (rest : List Nat) :
    decodeClaims (encodeClaims c ++ rest) = some (c, rest) := by
  simp only [encodeClaims, decodeClaims, List.append_assoc, List.cons_append,
    decodeStr_encodeStr, decodeStrList_encode]
  rfl

/-- Parsing a bare claims payload consumes it exactly. -/
theorem decodeClaims_encodeClaims_nil (c : Claims) :
    decodeClaims (encodeClaims c) = some (c, []) := by
  simpa using decodeClaims_encodeClaims c []

/-- The keyed code splits over concatenation. -/
theorem mac_append (key : Nat) (l1 l2 : List Nat) :
    mac key (l1 ++ l2) = mac (mac key l1) l2 := by
  induction l1 generalizing key with
  | nil => rfl
  | cons b tl ih => simp [mac, ih]

/-- The keyed code is injective in its accumulator. -/
theorem mac_init_inj (l : List Nat) (a a' : Nat) (h : mac a l = mac a' l) : a = a' := by
  induction l generalizing a a' with
  | nil => exact h
  | cons b tl ih =>
    have := ih _ _ h
    omega

/-- Changing a single wire unit of the payload changes the keyed code. -/
theorem mac_flip (key : Nat) (l1 : List Nat) (b b' : Nat) (l2 : List Nat)
    (h : b ≠ b') : mac key (l1 ++ b :: l2) ≠ mac key (l1 ++ b' :: l2) := by
  intro he
  rw [mac_append, mac_append] at he
  simp only [mac] at he
  have := mac_init_inj l2 _ _ he
  omega

/-- Evaluation of the decoder on a payload with trailing signature. -/
theorem decodeToken_concat (now : Nat) (body : List Nat) (sig : Nat) :
    decodeToken now (body ++ [sig]) =
      (match decodeClaims body with
       | some (c, []) =>
         if sig ≠ mac SECRET_KEY body then .invalidSignature
         else if c.exp < now then .expired
         else .ok c
       | _ => .malformed) := by
  simp only [decodeToken, List.getLast?_concat, List.dropLast_concat]

/-- C4: decoding a token immediately after issuance recovers exactly the
subject's username and exactly the scope set resolved for the user at
issuance time, with the configured expiry. -/
theorem C4_issue_decode_roundtrip (u : User) (now : Nat) :
    decodeToken now (create_access_token now u.username u.scopes) =
      .ok { sub := u.username, scopes := u.scopes,
            exp := now + ACCESS_TOKEN_EXPIRE_MINUTES } := by
  have hexp : ¬ (now + ACCESS_TOKEN_EXPIRE_MINUTES < now) := by omega
  rw [create_access_token, signToken, decodeToken_concat, decodeClaims_encodeClaims_nil]
  simp [hexp]

/-- C8: the three decode failure kinds are pairwise distinct; a genuinely
signed token past its embedded expiry decodes to `Expired`; a token whose
trailing signature does not match the payload decodes to
`InvalidSignature`; a token with one payload unit altered decodes to
`InvalidSignature` whenever it still parses (and to `Malformed` otherwise);
a token whose payload does not parse decodes to `Malformed`. -/
theorem C8_decode_failure_kinds :
    (DecodeResult.expired ≠ DecodeResult.invalidSignature ∧
     DecodeResult.expired ≠ DecodeResult.malformed ∧
     DecodeResult.invalidSignature ≠ DecodeResult.malformed) ∧
    (∀ (c : Claims) (now : Nat), c.exp < now →
      decodeToken now (signToken c) = .expired) ∧
    (∀ (c : Claims) (now sig : Nat), sig ≠ mac SECRET_KEY (encodeClaims c) →
      decodeToken now (encodeClaims c ++ [sig]) = .invalidSignature) ∧
    (∀ (c : Claims) (now : Nat) (l1 : List Nat) (b b' : Nat) (l2 : List Nat),
      encodeClaims c = l1 ++ b :: l2 → b' ≠ b →
      decodeToken now ((l1 ++ b' :: l2) ++ [mac SECRET_KEY (encodeClaims c)]) =
          .invalidSignature ∨
      decodeToken now ((l1 ++ b' :: l2) ++ [mac SECRET_KEY (encodeClaims c)]) =
          .malformed) ∧
    (∀ (now : Nat) (t : List Nat), decodeClaims t.dropLast = none →
      decodeToken now t = .malformed) := by
  refine ⟨⟨by decide, by decide, by decide⟩, ?_, ?_, ?_, ?_⟩
  · intro c now h
    rw [signToken, decodeToken_concat, decodeClaims_encodeClaims_nil]
    simp [h]
  · intro c now sig h
    rw [decodeToken_concat, decodeClaims_encodeClaims_nil]
    simp [h]
  · intro c now l1 b b' l2 henc hb
    have hsig : mac SECRET_KEY (encodeClaims c) ≠ mac SECRET_KEY (l1 ++ b' :: l2) := by
      rw [henc]
      exact mac_flip SECRET_KEY l1 b b' l2 (fun hbb => hb hbb.symm)
    rw [decodeToken_concat]
    cases hd : decodeClaims (l1 ++ b' :: l2) with
    | none =>
      right
      rfl
    | some pr =>
      rcases pr with ⟨c', rest⟩
      cases rest with
      | nil =>
        left
        simp [hsig]
      | cons x xs =>
        right
        rfl
  · intro now t h
    cases hl : t.getLast? with
    | none => simp [decodeToken, hl]
    | some sig => simp [decodeToken, hl, h]

/-- Witness for C8: an expired token, a token with a forged signature, a
token with one payload unit flipped, and an unparseable token, all at
concrete inputs. -/
theorem C8_decode_failure_kinds_witness :
    ((5 : Nat) < 99 ∧
      decodeToken 99 (signToken { sub := "sipho", scopes := ["tasks:read"], exp := 5 }) =
        .expired) ∧
    ((0 : Nat) ≠ mac SECRET_KEY (encodeClaims { sub := "sipho", scopes := ["tasks:read"], exp := 5 }) ∧
      decodeToken 0 (encodeClaims { sub := "sipho", scopes := ["tasks:read"], exp := 5 } ++ [0]) =
        .invalidSignature) ∧
    (encodeClaims { sub := "", scopes := [], exp := 7 } = [0, 0] ++ 7 :: [] ∧
      (decodeToken 0 (([0, 0] ++ 8 :: []) ++
          [mac SECRET_KEY (encodeClaims { sub := "", scopes := [], exp := 7 })]) =
          .invalidSignature ∨
       decodeToken 0 (([0, 0] ++ 8 :: []) ++
          [mac SECRET_KEY (encodeClaims { sub := "", scopes := [], exp := 7 })]) =
          .malformed)) ∧
    (decodeClaims ([3] : List Nat).dropLast = none ∧
      decodeToken 0 [3] = .malformed) :=
  ⟨⟨by decide,
    C8_decode_failure_kinds.2.1 { sub := "sipho", scopes := ["tasks:read"], exp := 5 } 99
      (by decide)⟩,
   ⟨by decide,
    C8_decode_failure_kinds.2.2.1 { sub := "sipho", scopes := ["tasks:read"], exp := 5 } 0 0
      (by decide)⟩,
   ⟨by decide,
    C8_decode_failure_kinds.2.2.2.1 { sub := "", scopes := [], exp := 7 } 0 [0, 0] 7 8 []
      (by decide) (by decide)⟩,
   ⟨by decide,
    C8_decode_failure_kinds.2.2.2.2 0 [3] (by decide)⟩⟩

/-- C3: a login attempt with a nonexistent username and one with an existing
username but wrong password produce the same observable outcome: a 401 with
the generic message and a `WWW-Authenticate: Bearer` header. -/
theorem C3_login_failures_indistinguishable (s : AppState) (now : Nat)
    (u1 p1 u2 p2 : String) (v : User)
    (h1 : find_user s u1 = none)
    (h2 : find_user s u2 = some v)
    (h3 : pwd_verify p2 v.hashed_password = false) :
    login_for_access_token s now u1 p1 =
      .err { status_code := 401, detail := "Incorrect username or password",
             www_authenticate := some "Bearer" } ∧
    login_for_access_token s now u2 p2 =
      .err { status_code := 401, detail := "Incorrect username or password",
             www_authenticate := some "Bearer" } ∧
    login_for_access_token s now u1 p1 = login_for_access_token s now u2 p2 := by
  have e1 : login_for_access_token s now u1 p1 =
      .err { status_code := 401, detail := "Incorrect username or password",
             www_authenticate := some "Bearer" } := by
    simp [login_for_access_token, authenticate_user, h1]
  have e2 : login_for_access_token s now u2 p2 =
      .err { status_code := 401, detail := "Incorrect username or password",
             www_authenticate := some "Bearer" } := by
    simp [login_for_access_token, authenticate_user, h2, h3]
  exact ⟨e1, e2, e1.trans e2.symm⟩

/-- Witness for C3 on the demonstration store: username "nosipho" does not
exist; "sipho-nkosi" exists but "WrongPass999" is not its password. -/
theorem C3_login_failures_indistinguishable_witness :
    find_user demo_state "nosipho" = none ∧
    find_user demo_state "sipho-nkosi" = some demo_member_user ∧
    pwd_verify "WrongPass999" demo_member_user.hashed_password = false ∧
    login_for_access_token demo_state 0 "nosipho" "anything" =
      login_for_access_token demo_state 0 "sipho-nkosi" "WrongPass999" :=
  ⟨by decide, by decide, by decide,
   (C3_login_failures_indistinguishable demo_state 0 "nosipho" "anything"
      "sipho-nkosi" "WrongPass999" demo_member_user
      (by decide) (by decide) (by decide)).2.2⟩

/-- C5: for an authenticated caller whose resolved scopes lack `users:write`
and `users:read`, user create, update and delete are rejected with the 403
permission error and leave the store unchanged, and user list and get are
rejected with the same 403; the `/users/me` self-read still succeeds with no
scope check; the permission error is distinct from the authentication
error. -/
theorem C5_user_crud_scope_enforcement (s : AppState) (cu : User) (uc : UserCreate)
    (uid : Nat) (upd : UserUpdate) (skip limit : Nat)
    (hw : "users:write" ∉ cu.scopes) (hr : "users:read" ∉ cu.scopes) :
    create_user_endpoint s cu uc = (.err forbiddenError, s) ∧
    update_user_endpoint s cu uid upd = (.err forbiddenError, s) ∧
    delete_user_endpoint s cu uid = (.err forbiddenError, s) ∧
    read_users_endpoint s cu skip limit = .err forbiddenError ∧
    read_user_endpoint s cu uid = .err forbiddenError ∧
    read_users_me_endpoint cu = .ok (toUserRead cu) ∧
    forbiddenError.status_code = 403 ∧
    forbiddenError ≠ { status_code := 401, detail := "Incorrect username or password",
                       www_authenticate := some "Bearer" } := by
  refine ⟨?_, ?_, ?_, ?_, ?_, rfl, rfl, by decide⟩
  · simp [create_user_endpoint, hw]
  · simp [update_user_endpoint, hw]
  · simp [delete_user_endpoint, hw]
  · simp [read_users_endpoint, hr]
  · simp [read_user_endpoint, hr]

/-- Witness for C5: the non-elevated demonstration user holds neither
`users:write` nor `users:read`, and all five scoped endpoints reject it
while the self-read succeeds. -/
theorem C5_user_crud_scope_enforcement_witness :
    ("users:write" ∉ demo_member_user.scopes ∧
     "users:read" ∉ demo_member_user.scopes) ∧
    (create_user_endpoint demo_state demo_member_user demo_user_create =
       (.err forbiddenError, demo_state) ∧
     update_user_endpoint demo_state demo_member_user 1 {} =
       (.err forbiddenError, demo_state) ∧
     delete_user_endpoint demo_state demo_member_user 1 =
       (.err forbiddenError, demo_state) ∧
     read_users_endpoint demo_state demo_member_user 0 100 = .err forbiddenError ∧
     read_user_endpoint demo_state demo_member_user 1 = .err forbiddenError ∧
     read_users_me_endpoint demo_member_user = .ok (toUserRead demo_member_user)) :=
  ⟨⟨by decide, by decide⟩,
   by
    have h := C5_user_crud_scope_enforcement demo_state demo_member_user
      demo_user_create 1 {} 0 100 (by decide) (by decide)
    exact ⟨h.1, h.2.1, h.2.2.1, h.2.2.2.1, h.2.2.2.2.1, h.2.2.2.2.2.1⟩⟩

/-- C6: for a caller A and a task and a category owned by a different user B
(identifiers being unique), A's read, update and delete requests on those
resources all return the 404 not-found error — never 403 and never the
resource — and the mutations leave the store unchanged, because every query
is filtered by the resolved caller's identifier. -/
theorem C6_ownership_filtering (s : AppState) (a : User) (t : Task) (c : Category)
    (upd : TaskUpdate) (cupd : CategoryUpdate)
    (_ht : t ∈ s.tasks) (htO : t.owner_id ≠ a.id)
    (htU : ∀ t' ∈ s.tasks, t'.id = t.id → t' = t)
    (_hc : c ∈ s.categories) (hcO : c.owner_id ≠ a.id)
    (hcU : ∀ c' ∈ s.categories, c'.id = c.id → c' = c) :
    read_task_endpoint s a t.id = .err { status_code := 404, detail := "Task not found" } ∧
    update_task_endpoint s a t.id upd =
      (.err { status_code := 404, detail := "Task not found" }, s) ∧
    delete_task_endpoint s a t.id =
      (.err { status_code := 404, detail := "Task not found" }, s) ∧
    read_category_endpoint s a c.id =
      .err { status_code := 404, detail := "Category not found" } ∧
    update_category_endpoint s a c.id cupd =
      (.err { status_code := 404, detail := "Category not found" }, s) ∧
    delete_category_endpoint s a c.id =
      (.err { status_code := 404, detail := "Category not found" }, s) := by
  have hT : TaskService_get_task s t.id a.id = none := by
    rw [TaskService_get_task, List.find?_eq_none]
    intro w hw hcon
    simp only [Bool.and_eq_true, beq_iff_eq] at hcon
    exact htO ((htU w hw hcon.1) ▸ hcon.2)
  have hC : CategoryService_get_category s c.id a.id = none := by
    rw [CategoryService_get_category, List.find?_eq_none]
    intro w hw hcon
    simp only [Bool.and_eq_true, beq_iff_eq] at hcon
    exact hcO ((hcU w hw hcon.1) ▸ hcon.2)
  refine ⟨?_, ?_, ?_, ?_, ?_, ?_⟩
  · simp [read_task_endpoint, hT]
  · simp [update_task_endpoint, TaskService_update_task, hT]
  · simp [delete_task_endpoint, TaskService_delete_task, hT]
  · simp [read_category_endpoint, hC]
  · simp [update_category_endpoint, CategoryService_update_category, hC]
  · simp [delete_category_endpoint, CategoryService_delete_category, hC]

/-- Witness for C6: the non-elevated demonstration user (id 2) against the
admin-owned task 10 and category 20 of the demonstration store. -/
theorem C6_ownership_filtering_witness :
    ({ id := 10, title := "file taxes", owner_id := 1 } : Task) ∈ demo_state.tasks ∧
    ({ id := 10, title := "file taxes", owner_id := 1 } : Task).owner_id ≠
      demo_member_user.id ∧
    read_task_endpoint demo_state demo_member_user 10 =
      .err { status_code := 404, detail := "Task not found" } ∧
    delete_task_endpoint demo_state demo_member_user 10 =
      (.err { status_code := 404, detail := "Task not found" }, demo_state) ∧
    read_category_endpoint demo_state demo_member_user 20 =
      .err { status_code := 404, detail := "Category not found" } :=
  ⟨by decide, by decide,
   by
    have h := C6_ownership_filtering demo_state demo_member_user
      { id := 10, title := "file taxes", owner_id := 1 }
      { id := 20, name := "work", owner_id := 1 } {} {}
      (by decide) (by decide) (by decide) (by decide) (by decide) (by decide)
    exact ⟨h.1, h.2.2.1, h.2.2.2.1⟩⟩

/-- Every surviving task keeps an owner after a cascaded user deletion. -/
theorem step_preserves_noOrphanTasks (s : AppState) (op : Op)
    (h : noOrphanTasks s = true) : noOrphanTasks (step s op) = true := by
  cases op with
  | createUser uc =>
    simp only [step, UserService_create_user]
    by_cases h1 : validate_user_create uc
    · by_cases h2 : s.users.any (fun u => u.username == uc.username || u.email == uc.email)
      · simp [h1, h2, h]
      · simp only [h1, h2, Bool.not_true, Bool.not_false, if_true, if_false]
        simp only [noOrphanTasks, List.all_eq_true, List.any_eq_true] at h ⊢
        intro t htm
        rcases h t htm with ⟨u, hu, hid⟩
        exact ⟨u, List.mem_append_left _ hu, hid⟩
    · simp [h1, h]
  | deleteUser uid =>
    simp only [step, UserService_delete_user]
    cases hg : UserService_get_user s uid with
    | none => simpa using h
    | some u =>
      simp only [noOrphanTasks, List.all_eq_true, List.any_eq_true] at h ⊢
      intro t htm
      rcases List.mem_filter.mp htm with ⟨htm', hown⟩
      rcases h t htm' with ⟨w, hw, hid⟩
      refine ⟨w, List.mem_filter.mpr ⟨hw, ?_⟩, hid⟩
      simp only [bne_iff_ne, ne_eq] at hown ⊢
      simp only [beq_iff_eq] at hid
      omega
  | createTask actor title =>
    simp only [step]
    by_cases ha : s.users.any (fun u => u.id == actor)
    · simp only [ha, if_true]
      simp only [noOrphanTasks, List.all_eq_true] at h ⊢
      intro t htm
      rcases List.mem_append.mp htm with htm' | htm'
      · exact h t htm'
      · simp only [List.mem_singleton] at htm'
        subst htm'
        simpa using ha
    · simpa [ha] using h
  | deleteTask actor tid =>
    simp only [step, TaskService_delete_task]
    cases hg : TaskService_get_task s tid actor with
    | none => simpa using h
    | some t =>
      simp only [noOrphanTasks, List.all_eq_true] at h ⊢
      intro w hwm
      exact h w (List.mem_filter.mp hwm).1

/-- The no-orphan invariant is preserved by any operation sequence. -/
theorem run_preserves_noOrphanTasks (ops : List Op) (s : AppState)
    (h : noOrphanTasks s = true) : noOrphanTasks (run s ops) = true := by
  induction ops generalizing s with
  | nil => exact h
  | cons op tl ih => exact ih _ (step_preserves_noOrphanTasks s op h)

/-- C9: starting from a store where every task has a live owner, a cascaded
user deletion leaves no task owned by the deleted identifier, and no
sequence of operations ever produces a task whose owner reference points to
a nonexistent user. -/
theorem C9_cascade_delete_no_orphans (s : AppState) (uid : Nat) (ops : List Op)
    (h : noOrphanTasks s = true) :
    ((UserService_delete_user s uid).2).tasks.all (fun t => t.owner_id != uid) = true ∧
    noOrphanTasks (run s ops) = true := by
  refine ⟨?_, run_preserves_noOrphanTasks ops s h⟩
  rw [UserService_delete_user]
  cases hg : UserService_get_user s uid with
  | none =>
    rw [UserService_get_user, List.find?_eq_none] at hg
    simp only [List.all_eq_true]
    intro t htm
    simp only [noOrphanTasks, List.all_eq_true, List.any_eq_true] at h
    rcases h t htm with ⟨u, hu, hid⟩
    have := hg u hu
    simp only [beq_iff_eq] at hid this ⊢
    simp only [bne_iff_ne, ne_eq]
    omega
  | some u =>
    simp only [List.all_eq_true]
    intro t htm
    exact (List.mem_filter.mp htm).2

/-- Witness for C9 on the demonstration store: delete user 1, then run a
deletion, a creation and another deletion. -/
theorem C9_cascade_delete_no_orphans_witness :
    noOrphanTasks demo_state = true ∧
    ((UserService_delete_user demo_state 1).2).tasks.all
      (fun t => t.owner_id != 1) = true ∧
    noOrphanTasks (run demo_state
      [Op.deleteUser 1, Op.createTask 2 "water garden", Op.deleteTask 2 11]) = true :=
  ⟨by decide,
   (C9_cascade_delete_no_orphans demo_state 1
      [Op.deleteUser 1, Op.createTask 2 "water garden", Op.deleteTask 2 11]
      (by decide)).1,
   (C9_cascade_delete_no_orphans demo_state 1
      [Op.deleteUser 1, Op.createTask 2 "water garden", Op.deleteTask 2 11]
      (by decide)).2⟩

end TaskManager
